import Mathlib

set_option maxHeartbeats 1000000

/-!
Shallow embedding of `src/src/asp/Tools/dem_mosaic.cc` (dem_mosaic: a tool to
mosaic and blend DEMs, outputting the mosaic as tiles).

Modelling conventions:
* C `double` values that only ever hold finite data are embedded as `ℚ`
  (the claims under study concern comparisons and exact-value dataflow, not
  floating-point rounding).
* Where IEEE NaN semantics matter (the no-data validity tests), values are
  embedded as `FV` (NaN or a rational), and C comparisons `==`/`!=`/`isnan`
  are embedded with their IEEE behaviour (NaN compares unequal to everything).
* External Vision Workbench calls (georeference transforms, file I/O) are
  parameters of the embedded functions; the repository code built on top of
  them is translated statement by statement.
-/

/-- IEEE-style floating value: NaN or an exact rational. -/
inductive FV where
  | nan : FV
  | num : ℚ → FV
deriving DecidableEq

/-- C `==` on doubles: NaN compares equal to nothing, including itself. -/
def fvEq : FV → FV → Bool
  | FV.num x, FV.num y => x == y
  | _, _ => false

/-- C `!=` on doubles: NaN compares unequal to everything, including itself. -/
def fvNe : FV → FV → Bool
  | FV.num x, FV.num y => !(x == y)
  | _, _ => true

/-- C `isnan`. -/
def isnanFV : FV → Bool
  | FV.nan => true
  | FV.num _ => false

/-- Addition on embedded doubles; NaN propagates. -/
def fvAdd : FV → FV → FV
  | FV.num x, FV.num y => FV.num (x + y)
  | _, _ => FV.nan

/-- Scaling an embedded double by a finite weight; NaN propagates. -/
def fvScale (q : ℚ) : FV → FV
  | FV.num x => FV.num (q * x)
  | FV.nan => FV.nan

/-- Division of an embedded double by a finite weight; NaN propagates. -/
def fvDivQ : FV → ℚ → FV
  | FV.num x, q => FV.num (x / q)
  | FV.nan, _ => FV.nan

/-- Numeric tolerance used throughout `dem_mosaic.cc` (line 64: `double g_tol = 1e-6;`). -/
def g_tol : ℚ := 1 / 1000000

/-- C `round` (half away from zero), as used in `int i0 = round(x)` and
`(int)round(...)`. -/
def roundAway (q : ℚ) : ℤ :=
  if 0 ≤ q then ⌊q + 1 / 2⌋ else -⌊-q + 1 / 2⌋

/-- C `(int)` cast of a double: truncation toward zero. -/
def truncI (q : ℚ) : ℤ :=
  if 0 ≤ q then ⌊q⌋ else ⌈q⌉

/-- vw::math `clamp(v, lo, hi)` on doubles. -/
def clampQ (v lo hi : ℚ) : ℚ :=
  if v < lo then lo else if hi < v then hi else v

/-- Pixel of the 2-channel working image `ImageView<PixelGrayA<double>> dem`:
value channel `v` (may be NaN) and weight/alpha channel `a`. -/
structure GrayA where
  v : FV
  a : ℚ
deriving DecidableEq

/-- List of all pixel positions of a `cols x rows` image, as visited by the
nested column/row loops of the source. -/
def pixList (cols rows : ℤ) : List (ℤ × ℤ) :=
  (List.range cols.toNat).foldr
    (fun (a : ℕ) acc =>
      ((List.range rows.toNat).map (fun (b : ℕ) => ((a : ℤ), (b : ℤ)))) ++ acc) []

/-- vw `max_pixel_value` over a `cols x rows` image (line 231): the maximum of
all pixel values, accumulated starting from the first visited pixel. -/
def max_pixel_value (w : ℤ → ℤ → ℚ) (cols rows : ℤ) : ℚ :=
  ((pixList cols rows).map (fun p => w p.1 p.2)).foldl max (w 0 0)

/-- Erosion of a per-source weight field (dem_mosaic.cc lines 231-236):
`max_cutoff = (int)max_pixel_value(local_wts); min_cutoff = erode_len;`
`if (max_cutoff <= min_cutoff) max_cutoff = min_cutoff + 1;`
`local_wts = clamp(local_wts - min_cutoff, 0.0, max_cutoff - min_cutoff);`. -/
def erodeWts (erode_len : ℤ) (w : ℤ → ℤ → ℚ) (cols rows : ℤ) : ℤ → ℤ → ℚ :=
  let max_cutoff0 : ℤ := truncI (max_pixel_value w cols rows)
  let min_cutoff : ℤ := erode_len
  let max_cutoff : ℤ := if max_cutoff0 ≤ min_cutoff then min_cutoff + 1 else max_cutoff0
  fun i j => clampQ (w i j - (min_cutoff : ℚ)) 0 ((max_cutoff : ℚ) - (min_cutoff : ℚ))

/-- The maximum weight observed in a `cols x rows` weight field of naturals
(the weight fields the source produces are integer valued: grassfire
distances, or `BigOrZero`'s 1e+8 / 0). This is the specification-side
formulation of `max_pixel_value`, for comparison with the code. -/
def observedMax (w : ℤ → ℤ → ℕ) (cols rows : ℤ) : ℕ :=
  ((pixList cols rows).map (fun p => w p.1 p.2)).foldl max 0

/-- Specification-side clamp ceiling basis for erosion: the maximum observed
weight when it exceeds `erode_len`, and `erode_len + 1` otherwise. -/
def specMaxCutoff (erode_len : ℤ) (w : ℤ → ℤ → ℕ) (cols rows : ℤ) : ℤ :=
  if erode_len < (observedMax w cols rows : ℤ) then (observedMax w cols rows : ℤ)
  else erode_len + 1

/-- `BigOrZero` functor (dem_mosaic.cc lines 93-101): draft-mode weights.
Valid test is only `pix != m_nodata` (no NaN check); valid pixels get 1e+8. -/
def bigOrZero (nodata : FV) (pix : FV) : ℚ :=
  if fvNe pix nodata then 100000000 else 0

/-- `NotNoDataFunctor` (dem_mosaic.cc lines 79-81): blended-mode validity
mask, `(val != m_nodata && !isnan(val))`; `true` stands for the channel-range
maximum (valid) and `false` for the minimum (invalid). -/
def notNoDataF (nodata : FV) (pix : FV) : Bool :=
  fvNe pix nodata && !isnanFV pix

/-- Modelled from the spec: `vw::grassfire` (Vision Workbench, not part of
this repository's sources) — "each valid pixel's weight equals its
city-block/chessboard distance to the nearest invalid pixel or mask edge",
and invalid pixels get weight zero. -/
def grassfireWt (valid : ℤ → ℤ → Bool) (cols rows : ℤ) (i j : ℤ) : ℕ :=
  if valid i j then
    let edgeDist : ℤ := min (min (i + 1) (j + 1)) (min (cols - i) (rows - j))
    let invDists : List ℤ :=
      (((pixList cols rows).filter (fun p => !(valid p.1 p.2))).map
        (fun p => |i - p.1| + |j - p.2|))
    (invDists.foldl min edgeDist).toNat
  else 0

/-- Index clamping of `ConstantEdgeExtension` for a length-`n` axis. -/
def clampIdx (n i : ℤ) : ℤ := min (max i 0) (n - 1)

/-- Access to the cropped source with constant edge extension. -/
def edgeExt (dem : ℤ → ℤ → GrayA) (cols rows : ℤ) (i j : ℤ) : GrayA :=
  dem (clampIdx cols i) (clampIdx rows j)

/-- `interpolate(dem, BilinearInterpolation(), ConstantEdgeExtension())`
evaluated at a fractional position `(x, y)` (dem_mosaic.cc lines 245-246,
284): bilinear interpolation of both channels over the four surrounding
grid pixels, with edge-extended access. -/
def bilinearAt (dem : ℤ → ℤ → GrayA) (cols rows : ℤ) (x y : ℚ) : GrayA :=
  let i : ℤ := ⌊x⌋
  let j : ℤ := ⌊y⌋
  let dx : ℚ := x - (i : ℚ)
  let dy : ℚ := y - (j : ℚ)
  let p00 := edgeExt dem cols rows i j
  let p10 := edgeExt dem cols rows (i + 1) j
  let p01 := edgeExt dem cols rows i (j + 1)
  let p11 := edgeExt dem cols rows (i + 1) (j + 1)
  { v := fvAdd (fvScale (1 - dy) (fvAdd (fvScale (1 - dx) p00.v) (fvScale dx p10.v)))
               (fvScale dy (fvAdd (fvScale (1 - dx) p01.v) (fvScale dx p11.v))),
    a := (1 - dy) * ((1 - dx) * p00.a + dx * p10.a) +
         dy * ((1 - dx) * p01.a + dx * p11.a) }

/-- On-grid test of dem_mosaic.cc lines 258-261: the mapped coordinate is
within `g_tol` of an integer grid position that lies inside the cropped
source's bounds. -/
abbrev onGridCond (cols rows : ℤ) (x y : ℚ) : Prop :=
  |x - ((roundAway x : ℤ) : ℚ)| < g_tol ∧ |y - ((roundAway y : ℤ) : ℚ)| < g_tol ∧
  0 ≤ roundAway x ∧ roundAway x ≤ cols - 1 ∧ 0 ≤ roundAway y ∧ roundAway y ≤ rows - 1

/-- Bounds test `is_good` of dem_mosaic.cc lines 275-276: the coordinate lies
within the cropped source's fractional extent `[0, cols-1] x [0, rows-1]`
(the comment notes "below must use x <= cols()-1 as x is double"). -/
abbrev inFracExtent (cols rows : ℤ) (x y : ℚ) : Prop :=
  0 ≤ x ∧ x ≤ (cols : ℚ) - 1 ∧ 0 ≤ y ∧ y ≤ (rows : ℚ) - 1

/-- Per-output-pixel sampling of one cropped source (dem_mosaic.cc lines
256-285): on-grid positions take the exact pixel; otherwise require the
fractional bounds and four positive neighbor weights, and bilinearly
interpolate; `none` models `continue`. -/
def samplePval (dem : ℤ → ℤ → GrayA) (cols rows : ℤ) (x y : ℚ) : Option GrayA :=
  if onGridCond cols rows x y then
    some (dem (roundAway x) (roundAway y))
  else if inFracExtent cols rows x y then
    let i : ℤ := ⌊x⌋
    let j : ℤ := ⌊y⌋
    if (dem i j).a ≤ 0 ∨ (dem (i + 1) j).a ≤ 0 ∨
       (dem i (j + 1)).a ≤ 0 ∨ (dem (i + 1) (j + 1)).a ≤ 0 then
      none
    else
      some (bilinearAt dem cols rows x y)
  else
    none

/-- Sampling followed by the `if (wt <= 0) continue;` test of line 289. -/
def sampleContrib (dem : ℤ → ℤ → GrayA) (cols rows : ℤ) (x y : ℚ) : Option GrayA :=
  match samplePval dem cols rows x y with
  | none => none
  | some p => if p.a ≤ 0 then none else some p

/-- One cropped source as seen by the per-tile loops: the 2-channel cropped
image with its bounds, and the output-pixel to local-source-coordinate map
(the `out_georef.pixel_to_point` / `georef.point_to_pixel` chain followed by
the `pix_box.min()` offset, lines 250-255; the georeference transforms are
external and enter as the function `mapPix`). -/
structure CroppedSource where
  dem : ℤ → ℤ → GrayA
  cols : ℤ
  rows : ℤ
  mapPix : ℤ → ℤ → ℚ × ℚ

/-- The contribution of one source at output pixel `(c, r)`. -/
def sourceContrib (s : CroppedSource) (c r : ℤ) : Option GrayA :=
  let xy := s.mapPix c r
  sampleContrib s.dem s.cols s.rows xy.1 xy.2

/-- Accumulation of one contribution into the (tile, weights) pair for one
output pixel (dem_mosaic.cc lines 286-304): reset the accumulator to zero on
first valid contribution (`tile == nodata || isnan(tile)`), then either
accumulate `wt*val` and `wt` (blended) or overwrite with the latest value and
weight 1 (draft). -/
def applyContrib (draft_mode : Bool) (out_nodata : FV) (contrib : Option GrayA)
    (tw : FV × ℚ) : FV × ℚ :=
  match contrib with
  | none => tw
  | some p =>
    let t0 : FV := if fvEq tw.1 out_nodata || isnanFV tw.1 then FV.num 0 else tw.1
    if draft_mode then (p.v, 1)
    else (fvAdd t0 (fvScale p.a p.v), tw.2 + p.a)

/-- Processing of all sources at one output pixel, starting from the
initialization `fill(tile, m_out_nodata_value); fill(weights, 0.0);`
(lines 186-187). -/
def processSources (draft_mode : Bool) (out_nodata : FV) (srcs : List CroppedSource)
    (c r : ℤ) : FV × ℚ :=
  srcs.foldl (fun tw s => applyContrib draft_mode out_nodata (sourceContrib s c r) tw)
    (out_nodata, 0)

/-- The final value of one output pixel: divide by the accumulated weight
where it is positive (dem_mosaic.cc lines 310-319). -/
def mosaicPixel (draft_mode : Bool) (out_nodata : FV) (srcs : List CroppedSource)
    (c r : ℤ) : FV :=
  let tw := processSources draft_mode out_nodata srcs c r
  if 0 < tw.2 then fvDivQ tw.1 tw.2 else tw.1

/-- The per-source weight computation and alpha-channel fill of dem_mosaic.cc
lines 212-243: draft mode uses `BigOrZero`, blended mode uses grassfire of
the `notnodata` mask; both are then eroded, and the result is stored in the
alpha channel of the 2-channel image. -/
def buildDem (draft_mode : Bool) (nodata : FV) (erode_len : ℤ) (img : ℤ → ℤ → FV)
    (cols rows : ℤ) : ℤ → ℤ → GrayA :=
  let local_wts : ℤ → ℤ → ℚ :=
    if draft_mode then fun i j => bigOrZero nodata (img i j)
    else fun i j => (grassfireWt (fun a b => notNoDataF nodata (img a b)) cols rows i j : ℚ)
  let eroded := erodeWts erode_len local_wts cols rows
  fun i j => { v := img i j, a := eroded i j }

/-- A 1x1 cropped source holding a single NaN pixel, prepared in draft mode,
with the identity output-to-source pixel map. -/
def nanSource (nodata : FV) : CroppedSource :=
  { dem := buildDem true nodata 0 (fun _ _ => FV.nan) 1 1,
    cols := 1, rows := 1,
    mapPix := fun c r => ((c : ℚ), (r : ℚ)) }

/-- A small concrete test image used by witnesses. -/
def demW : ℤ → ℤ → GrayA :=
  fun i j => { v := FV.num ((i : ℚ) + 10 * (j : ℚ)), a := 1 }

/-- A small concrete weight field used by witnesses. -/
def wWit : ℤ → ℤ → ℕ :=
  fun i j => if i = 0 ∧ j = 0 then 3 else 1

/-- An all-NaN image used by witnesses. -/
def nanImg : ℤ → ℤ → FV := fun _ _ => FV.nan

/-- A lon-lat bounding box (degrees), `BBox2` of doubles. -/
structure LLBox where
  min_x : ℚ
  min_y : ℚ
  max_x : ℚ
  max_y : ℚ
deriving DecidableEq

/-- The 360-degree shift applied by `lonlat_to_pixel_bbox_with_adjustment`
(dem_mosaic.cc lines 120-127): `shift = (int)round((cr[0] - center)/360)` with
`cr = georef.pixel_to_lonlat(Vector2(0,0))`, then `lonlat_box += Vector2(360,0)*shift`. -/
def adjustLonlatBox (originLon : ℚ) (box : LLBox) : LLBox :=
  let shift : ℤ := roundAway ((originLon - (box.min_x + box.max_x) / 2) / 360)
  { min_x := box.min_x + 360 * (shift : ℚ), min_y := box.min_y,
    max_x := box.max_x + 360 * (shift : ℚ), max_y := box.max_y }

/-- `lonlat_to_pixel_bbox_with_adjustment` (dem_mosaic.cc lines 120-130):
shift the lon-lat box, then convert it to a pixel box via the external
`georef.lonlat_to_pixel_bbox` (entering as the parameter `toPixBox`). -/
def lonlat_to_pixel_bbox_with_adjustment (toPixBox : LLBox → LLBox)
    (originLon : ℚ) (box : LLBox) : LLBox :=
  toPixBox (adjustLonlatBox originLon box)

/-- The `Options` structure of dem_mosaic.cc (lines 344-353), restricted to
the fields the embedded driver reads. `outPref` embeds the output-prefix
string member. -/
structure Opts where
  draft_mode : Bool
  dem_list_file : String
  outPref : String
  target_srs_string : String
  mpp : ℚ
  tr : ℚ
  geo_tile_size : ℚ
  has_out_nodata : Bool
  out_nodata_value : FV
  tile_size : ℤ
  tile_index : ℤ
  erode_len : ℤ
  blending_len : ℤ
  num_threads : ℤ

/-- A concrete options record with an empty output prefix, used by witnesses. -/
def optsBad : Opts :=
  { draft_mode := false, dem_list_file := "", outPref := "", target_srs_string := "",
    mpp := 0, tr := 0, geo_tile_size := 0, has_out_nodata := false,
    out_nodata_value := FV.num 0, tile_size := 1000000, tile_index := -1,
    erode_len := 0, blending_len := 200, num_threads := 4 }

/-- The validation chain of `handle_arguments` (dem_mosaic.cc lines 399-451),
in source order. `unreg` is the list of positional (unregistered) arguments
and `listC` the file names read from the `--dem-list-file`; on success the
resolved list of input DEM files is returned. -/
def handle_arguments (o : Opts) (unreg listC : List String) : Except String (List String) :=
  if 0 < o.mpp ∧ 0 < o.tr then
    Except.error "Just one of the --mpp and --tr options needs to be set."
  else if o.outPref = "" then
    Except.error "No output prefix was specified."
  else if o.num_threads = 0 then
    Except.error "The number of threads must be set and positive."
  else if o.erode_len < 0 then
    Except.error "The erode length must not be negative."
  else if o.blending_len < 0 then
    Except.error "The blending length must not be negative."
  else if o.tile_size ≤ 0 then
    Except.error "The size of a tile in pixels must be set and positive."
  else if o.draft_mode = true ∧ 0 < o.erode_len then
    Except.error "Cannot erode pixels in draft mode."
  else if o.geo_tile_size < 0 then
    Except.error "The size of a tile in georeferenced units must not be negative."
  else if o.dem_list_file ≠ "" then
    if unreg ≠ [] then
      Except.error "The DEMs were specified via a list. There were however extraneous files or options passed in."
    else if listC = [] then
      Except.error "No DEM files to mosaic."
    else Except.ok listC
  else if unreg = [] then
    Except.error "No input DEMs were specified.."
  else Except.ok unreg

/-- The disjunction of configuration-error conditions listed by the spec:
mutually exclusive resolution flags both set, empty output prefix, zero
thread count, negative erode length, negative blending length, non-positive
tile size, draft mode with positive erode length, negative projected tile
size, changing the projection without specifying a resolution, and no input
DEMs resolved. -/
abbrev configError (o : Opts) (unreg listC : List String) (firstProj : String) : Prop :=
  (0 < o.mpp ∧ 0 < o.tr) ∨ o.outPref = "" ∨ o.num_threads = 0 ∨
  o.erode_len < 0 ∨ o.blending_len < 0 ∨ o.tile_size ≤ 0 ∨
  (o.draft_mode = true ∧ 0 < o.erode_len) ∨ o.geo_tile_size < 0 ∨
  (o.target_srs_string ≠ "" ∧ o.target_srs_string ≠ firstProj ∧ o.tr ≤ 0) ∨
  (o.dem_list_file ≠ "" ∧ listC = []) ∨ (o.dem_list_file = "" ∧ unreg = [])

/-- Number of tiles along one axis (dem_mosaic.cc lines 600-603):
`(int)ceil((double)dim/double(tile_size))`, set to 1 when non-positive. -/
def numTilesAxis (dim tile_size : ℤ) : ℤ :=
  let n : ℤ := ⌈(dim : ℚ) / (tile_size : ℚ)⌉
  if n ≤ 0 then 1 else n

/-- The tile-id to (tile_index_x, tile_index_y) mapping of dem_mosaic.cc
lines 631-632: `tile_index_y = tile_id / num_tiles_y;`
`tile_index_x = tile_id - tile_index_y*num_tiles_y;` (integer division). -/
def tileIndexXY (num_tiles_y tile_id : ℤ) : ℤ × ℤ :=
  let tile_index_y : ℤ := Int.tdiv tile_id num_tiles_y
  (tile_id - tile_index_y * num_tiles_y, tile_index_y)

/-- Membership of a mosaic pixel in the pre-clipping pixel box of a tile
(dem_mosaic.cc lines 633-634: `BBox2i tile_box(tile_index_x*tile_size,
tile_index_y*tile_size, tile_size, tile_size)`). -/
abbrev pixelInPreclipTileBox (tile_size num_tiles_y tile_id px py : ℤ) : Prop :=
  (tileIndexXY num_tiles_y tile_id).1 * tile_size ≤ px ∧
  px < (tileIndexXY num_tiles_y tile_id).1 * tile_size + tile_size ∧
  (tileIndexXY num_tiles_y tile_id).2 * tile_size ≤ py ∧
  py < (tileIndexXY num_tiles_y tile_id).2 * tile_size + tile_size

/-- Tile-id selection of dem_mosaic.cc lines 622-627: a negative
`--tile-index` selects all tiles, otherwise only the given one. -/
def selectedTiles (tile_index num_tiles : ℤ) : List ℤ :=
  let s : ℤ := if tile_index < 0 then 0 else tile_index
  let e : ℤ := if tile_index < 0 then num_tiles else tile_index + 1
  (List.range (e - s).toNat).map (fun i => s + (i : ℤ))

/-- A tile's pixel box after `tile_box.crop(BBox2i(0, 0, cols, rows))`
(line 635), as (min_x, min_y, max_x, max_y). -/
def croppedTileBox (tile_size num_tiles_y cols rows tile_id : ℤ) : ℤ × ℤ × ℤ × ℤ :=
  let xy := tileIndexXY num_tiles_y tile_id
  (max (xy.1 * tile_size) 0, max (xy.2 * tile_size) 0,
   min (xy.1 * tile_size + tile_size) cols, min (xy.2 * tile_size + tile_size) rows)

/-- The `out_dem.cols() == 0 || out_dem.rows() == 0` skip test of line 648. -/
def tileEmpty (b : ℤ × ℤ × ℤ × ℤ) : Bool :=
  (b.2.2.1 - b.1 == 0) || (b.2.2.2 - b.2.1 == 0)

/-- Observable outcome of the embedded driver: process exit code, the tile
ids written to disk, and the diagnostics printed. -/
structure DriverOut where
  exitCode : ℤ
  writes : List ℤ
  msgs : List String
deriving DecidableEq

/-- The tile loop of `main` (dem_mosaic.cc lines 616-658): the out-of-range
single-tile request returns success with a diagnostic and no writes;
otherwise the selected tiles are written, skipping those whose cropped box
is empty. -/
def tilePhase (tile_index tile_size cols rows : ℤ) : DriverOut :=
  let num_tiles_x := numTilesAxis cols tile_size
  let num_tiles_y := numTilesAxis rows tile_size
  let num_tiles := num_tiles_x * num_tiles_y
  if num_tiles ≤ tile_index then
    { exitCode := 0, writes := [],
      msgs := ["Tile with index: " ++ toString tile_index ++ " is out of bounds."] }
  else
    let ids := selectedTiles tile_index num_tiles
    { exitCode := 0,
      writes := ids.filter
        (fun id => !(tileEmpty (croppedTileBox tile_size num_tiles_y cols rows id))),
      msgs := (ids.filter
        (fun id => tileEmpty (croppedTileBox tile_size num_tiles_y cols rows id))).map
        (fun id => "Skip writing empty image: tile " ++ toString id) }

/-- The effective tile size (dem_mosaic.cc lines 517-521): a positive
`--georef-tile-size` converts to pixels via the output resolution, and the
result is raised to at least 1. -/
def effectiveTileSize (o : Opts) (spacing : ℚ) : ℤ :=
  let t : ℤ := if 0 < o.geo_tile_size then roundAway (o.geo_tile_size / spacing) else o.tile_size
  max t 1

/-- The checks of `main` that run after `handle_arguments` and before any
tile is rasterized (dem_mosaic.cc lines 486-497): changing the projection
requires `--tr`. `firstProj` is the (externally read and normalized) proj4
string of the first DEM. -/
def mainAfterChecks (o : Opts) (firstProj : String) (spacing : ℚ) (cols rows : ℤ) : DriverOut :=
  if o.target_srs_string ≠ "" ∧ o.target_srs_string ≠ firstProj ∧ o.tr ≤ 0 then
    { exitCode := 1, writes := [],
      msgs := ["Changing the projection was requested. The output DEM resolution must be specified via the --tr option."] }
  else
    tilePhase o.tile_index (effectiveTileSize o spacing) cols rows

/-- The embedded driver: `handle_arguments` followed by `main`'s checks and
tile loop. A thrown `ArgumentErr` is caught by `ASP_STANDARD_CATCHES`, which
reports it and exits with a non-zero code; no tile is written in that case. -/
def runDriver (o : Opts) (unreg listC : List String) (firstProj : String)
    (spacing : ℚ) (cols rows : ℤ) : DriverOut :=
  match handle_arguments o unreg listC with
  | Except.error e => { exitCode := 1, writes := [], msgs := [e] }
  | Except.ok _ => mainAfterChecks o firstProj spacing cols rows

/-! Helper lemmas. -/

theorem roundAway_abs_le (q : ℚ) : |q - ((roundAway q : ℤ) : ℚ)| ≤ 1 / 2 := by
  unfold roundAway
  by_cases h : 0 ≤ q
  · rw [if_pos h]
    have h1 : ((⌊q + 1 / 2⌋ : ℤ) : ℚ) ≤ q + 1 / 2 := Int.floor_le _
    have h2 : q + 1 / 2 - 1 < ((⌊q + 1 / 2⌋ : ℤ) : ℚ) := Int.sub_one_lt_floor _
    rw [abs_le]
    constructor <;> linarith
  · rw [if_neg h]
    have h1 : ((⌊-q + 1 / 2⌋ : ℤ) : ℚ) ≤ -q + 1 / 2 := Int.floor_le _
    have h2 : -q + 1 / 2 - 1 < ((⌊-q + 1 / 2⌋ : ℤ) : ℚ) := Int.sub_one_lt_floor _
    rw [abs_le]
    push_cast
    constructor <;> linarith

theorem sampleContrib_pos {dem : ℤ → ℤ → GrayA} {cols rows : ℤ} {x y : ℚ} {p : GrayA}
    (h : sampleContrib dem cols rows x y = some p) : 0 < p.a := by
  unfold sampleContrib at h
  cases hs : samplePval dem cols rows x y with
  | none => rw [hs] at h; exact absurd h (by simp)
  | some q =>
    rw [hs] at h
    by_cases hq : q.a ≤ 0 <;> simp [hq] at h
    subst h
    exact lt_of_not_le hq

theorem sourceContrib_pos {s : CroppedSource} {c r : ℤ} {p : GrayA}
    (h : sourceContrib s c r = some p) : 0 < p.a :=
  sampleContrib_pos h

/-! C4. -/

/-- C4: whenever the mapped source coordinate (x, y) is within epsilon of an
integer grid position that lies inside the cropped source's bounds, the
compositor takes that exact source pixel's value and weight without
interpolating, and the epsilon used for on-grid detection is the fixed
constant 1e-6. -/
theorem on_grid_exact_sample (dem : ℤ → ℤ → GrayA) (cols rows : ℤ) (x y : ℚ)
    (hx : |x - ((roundAway x : ℤ) : ℚ)| < g_tol) (hy : |y - ((roundAway y : ℤ) : ℚ)| < g_tol)
    (hx0 : 0 ≤ roundAway x) (hx1 : roundAway x ≤ cols - 1)
    (hy0 : 0 ≤ roundAway y) (hy1 : roundAway y ≤ rows - 1) :
    samplePval dem cols rows x y = some (dem (roundAway x) (roundAway y)) ∧
    g_tol = 1 / 1000000 := by
  refine ⟨?_, rfl⟩
  unfold samplePval
  rw [if_pos ⟨hx, hy, hx0, hx1, hy0, hy1⟩]

set_option maxRecDepth 100000 in
/-- Witness for C4 at the concrete near-grid position (2 + 1/2000000, 3). -/
theorem on_grid_exact_sample_witness :
    (|(2 + 1 / 2000000 : ℚ) - ((roundAway (2 + 1 / 2000000 : ℚ) : ℤ) : ℚ)| < g_tol ∧
     |(3 : ℚ) - ((roundAway (3 : ℚ) : ℤ) : ℚ)| < g_tol ∧
     0 ≤ roundAway (2 + 1 / 2000000 : ℚ) ∧ roundAway (2 + 1 / 2000000 : ℚ) ≤ 5 - 1 ∧
     0 ≤ roundAway (3 : ℚ) ∧ roundAway (3 : ℚ) ≤ 5 - 1) ∧
    samplePval demW 5 5 (2 + 1 / 2000000) 3 =
      some (demW (roundAway (2 + 1 / 2000000 : ℚ)) (roundAway (3 : ℚ))) ∧
    g_tol = 1 / 1000000 :=
  ⟨⟨by with_unfolding_all decide, by with_unfolding_all decide,
    by with_unfolding_all decide, by with_unfolding_all decide,
    by with_unfolding_all decide, by with_unfolding_all decide⟩,
   on_grid_exact_sample demW 5 5 (2 + 1 / 2000000) 3
     (by with_unfolding_all decide) (by with_unfolding_all decide)
     (by with_unfolding_all decide) (by with_unfolding_all decide)
     (by with_unfolding_all decide) (by with_unfolding_all decide)⟩

/-! C7. -/

/-- C7: when the requested tile index is at least the computed tile count,
the driver prints an out-of-bounds diagnostic, writes no tiles, and returns
exit code 0. -/
theorem tile_index_out_of_bounds_noop (tile_index tile_size cols rows : ℤ)
    (h : numTilesAxis cols tile_size * numTilesAxis rows tile_size ≤ tile_index) :
    tilePhase tile_index tile_size cols rows =
      { exitCode := 0, writes := [],
        msgs := ["Tile with index: " ++ toString tile_index ++ " is out of bounds."] } := by
  unfold tilePhase
  rw [if_pos h]

set_option maxRecDepth 100000 in
/-- Witness for C7: tile index 5 against a 1x1 tile grid. -/
theorem tile_index_out_of_bounds_noop_witness :
    numTilesAxis 10 10 * numTilesAxis 10 10 ≤ 5 ∧
    tilePhase 5 10 10 10 =
      { exitCode := 0, writes := [],
        msgs := ["Tile with index: " ++ toString (5 : ℤ) ++ " is out of bounds."] } :=
  ⟨by with_unfolding_all decide, tile_index_out_of_bounds_noop 5 10 10 10 (by with_unfolding_all decide)⟩

/-! C8. -/

/-- C8: lonlat_to_pixel_bbox_with_adjustment, before converting, shifts the
box's longitudes by 360 * round((origin_longitude - box_center_longitude)/360),
cancelling the offset between the box's center longitude and the
georeference's origin longitude to within half a period (nearest multiple of
360 degrees). -/
theorem lonlat_adjustment_nearest_360 (toPixBox : LLBox → LLBox) (originLon : ℚ) (box : LLBox) :
    lonlat_to_pixel_bbox_with_adjustment toPixBox originLon box =
      toPixBox
        { min_x := box.min_x +
            360 * ((roundAway ((originLon - (box.min_x + box.max_x) / 2) / 360) : ℤ) : ℚ),
          min_y := box.min_y,
          max_x := box.max_x +
            360 * ((roundAway ((originLon - (box.min_x + box.max_x) / 2) / 360) : ℤ) : ℚ),
          max_y := box.max_y } ∧
    |originLon -
      ((adjustLonlatBox originLon box).min_x + (adjustLonlatBox originLon box).max_x) / 2| ≤ 180 := by
  constructor
  · rfl
  · unfold adjustLonlatBox
    have h := roundAway_abs_le ((originLon - (box.min_x + box.max_x) / 2) / 360)
    rw [abs_le] at h ⊢
    obtain ⟨h1, h2⟩ := h
    constructor <;> [nlinarith; nlinarith]

/-! C10. -/

/-- C10: every negative tile index, not only the default -1, selects all
tiles: the driver tests tile_index less than 0 and then iterates tile ids
0 through num_tiles - 1. -/
theorem negative_tile_index_all_tiles (tile_index num_tiles : ℤ) (h : tile_index < 0) :
    selectedTiles tile_index num_tiles =
      (List.range num_tiles.toNat).map (fun i => (i : ℤ)) := by
  unfold selectedTiles
  rw [if_pos h, if_pos h]
  simp

/-- Witness for C10 at tile_index -5 with 3 tiles. -/
theorem negative_tile_index_all_tiles_witness :
    (-5 : ℤ) < 0 ∧ selectedTiles (-5) 3 = [0, 1, 2] :=
  ⟨by decide, (negative_tile_index_all_tiles (-5) 3 (by decide)).trans (by with_unfolding_all decide)⟩

/-! C1. -/

/-- C1 fails on the code: for a 2 x 1 mosaic with tile_size 1 the code
computes num_tiles_x = 2 and num_tiles_y = 1 (the claimed ceil formula), but
the tile-id mapping uses num_tiles_y in the x formula, sending tile id 1 to
(tile_index_x, tile_index_y) = (0, 1) instead of (1, 0); consequently the
mosaic pixel (1, 0) lies in no tile's pre-clipping pixel box, so the tile
boxes neither enumerate the claimed index pairs nor cover the mosaic. -/
theorem tile_mapping_bug_at_2x1 :
    numTilesAxis 2 1 = 2 ∧ numTilesAxis 1 1 = 1 ∧
    tileIndexXY 1 0 = (0, 0) ∧ tileIndexXY 1 1 = (0, 1) ∧
    ¬ pixelInPreclipTileBox 1 1 0 1 0 ∧ ¬ pixelInPreclipTileBox 1 1 1 1 0 ∧
    (tilePhase (-1) 1 2 1).writes = [0] := by
  with_unfolding_all decide

/-! C2. -/

theorem applyContrib_inv (out_nodata : FV) (contrib : Option GrayA)
    (hpos : ∀ p, contrib = some p → 0 < p.a) (tw : FV × ℚ)
    (h1 : 0 ≤ tw.2) (h2 : tw.2 = 0 → tw.1 = out_nodata) :
    0 ≤ (applyContrib false out_nodata contrib tw).2 ∧
    ((applyContrib false out_nodata contrib tw).2 = 0 →
     (applyContrib false out_nodata contrib tw).1 = out_nodata) := by
  cases contrib with
  | none => exact ⟨h1, h2⟩
  | some p =>
    have hp := hpos p rfl
    unfold applyContrib
    simp only [Bool.false_eq_true, if_false]
    constructor
    · linarith
    · intro h0
      exact absurd h0 (by linarith)

theorem foldl_contrib_inv (out_nodata : FV) (c r : ℤ) (srcs : List CroppedSource) :
    ∀ tw : FV × ℚ, 0 ≤ tw.2 → (tw.2 = 0 → tw.1 = out_nodata) →
    0 ≤ (srcs.foldl (fun tw s => applyContrib false out_nodata (sourceContrib s c r) tw) tw).2 ∧
    ((srcs.foldl (fun tw s => applyContrib false out_nodata (sourceContrib s c r) tw) tw).2 = 0 →
     (srcs.foldl (fun tw s => applyContrib false out_nodata (sourceContrib s c r) tw) tw).1 = out_nodata) := by
  induction srcs with
  | nil => intro tw h1 h2; exact ⟨h1, h2⟩
  | cons s l ih =>
    intro tw h1 h2
    rw [List.foldl_cons]
    have step := applyContrib_inv out_nodata (sourceContrib s c r)
      (fun p hp => sourceContrib_pos hp) tw h1 h2
    exact ih _ step.1 step.2

/-- C2: after all sources are processed for a tile in blended mode, every
output pixel with positive accumulated weight holds its accumulated sum
divided by that weight, and every output pixel whose accumulated weight is
zero (i.e. not positive) still holds the output no-data sentinel with which
the tile buffer was initialized. -/
theorem blended_normalization_correct (out_nodata : FV) (srcs : List CroppedSource) (c r : ℤ) :
    mosaicPixel false out_nodata srcs c r =
      (if 0 < (processSources false out_nodata srcs c r).2 then
        fvDivQ (processSources false out_nodata srcs c r).1
          (processSources false out_nodata srcs c r).2
      else out_nodata) := by
  have inv := foldl_contrib_inv out_nodata c r srcs (out_nodata, 0) le_rfl (fun _ => rfl)
  unfold mosaicPixel
  by_cases h : 0 < (processSources false out_nodata srcs c r).2
  · rw [if_pos h, if_pos h]
  · rw [if_neg h, if_neg h]
    exact inv.2 (le_antisymm (not_lt.1 h) inv.1)

/-! C5. -/

theorem samplePval_off_grid (dem : ℤ → ℤ → GrayA) (cols rows : ℤ) (x y : ℚ)
    (hng : ¬ onGridCond cols rows x y) :
    samplePval dem cols rows x y =
      (if inFracExtent cols rows x y then
        if (dem ⌊x⌋ ⌊y⌋).a ≤ 0 ∨ (dem (⌊x⌋ + 1) ⌊y⌋).a ≤ 0 ∨
           (dem ⌊x⌋ (⌊y⌋ + 1)).a ≤ 0 ∨ (dem (⌊x⌋ + 1) (⌊y⌋ + 1)).a ≤ 0 then
          none
        else some (bilinearAt dem cols rows x y)
      else none) := by
  unfold samplePval
  rw [if_neg hng]

/-- C5: off the grid, a source contributes to an output pixel only if the
coordinate lies within the cropped source's fractional extent and all four
surrounding integer-grid pixels have positive weight and the interpolated
weight is positive; in that case the contribution is the bilinear
interpolation; otherwise the contribution is skipped and the accumulation
step leaves the accumulator unchanged. -/
theorem off_grid_contribution_iff (dem : ℤ → ℤ → GrayA) (cols rows : ℤ) (x y : ℚ)
    (hng : ¬ onGridCond cols rows x y) :
    (sampleContrib dem cols rows x y ≠ none ↔
      inFracExtent cols rows x y ∧
      (0 < (dem ⌊x⌋ ⌊y⌋).a ∧ 0 < (dem (⌊x⌋ + 1) ⌊y⌋).a ∧
       0 < (dem ⌊x⌋ (⌊y⌋ + 1)).a ∧ 0 < (dem (⌊x⌋ + 1) (⌊y⌋ + 1)).a) ∧
      0 < (bilinearAt dem cols rows x y).a) ∧
    (∀ p, sampleContrib dem cols rows x y = some p → p = bilinearAt dem cols rows x y) ∧
    (∀ (draft_mode : Bool) (out_nodata : FV) (tw : FV × ℚ),
      applyContrib draft_mode out_nodata none tw = tw) := by
  have hsp := samplePval_off_grid dem cols rows x y hng
  refine ⟨?_, ?_, fun _ _ _ => rfl⟩
  · unfold sampleContrib
    rw [hsp]
    by_cases hin : inFracExtent cols rows x y
    · rw [if_pos hin]
      by_cases hw : (dem ⌊x⌋ ⌊y⌋).a ≤ 0 ∨ (dem (⌊x⌋ + 1) ⌊y⌋).a ≤ 0 ∨
          (dem ⌊x⌋ (⌊y⌋ + 1)).a ≤ 0 ∨ (dem (⌊x⌋ + 1) (⌊y⌋ + 1)).a ≤ 0
      · rw [if_pos hw]
        simp only [ne_eq, not_true_eq_false, false_iff, not_and]
        intro _ hq _
        rcases hw with hh | hh | hh | hh
        · exact absurd hq.1 (not_lt.2 hh)
        · exact absurd hq.2.1 (not_lt.2 hh)
        · exact absurd hq.2.2.1 (not_lt.2 hh)
        · exact absurd hq.2.2.2 (not_lt.2 hh)
      · rw [if_neg hw]
        push_neg at hw
        by_cases hb : (bilinearAt dem cols rows x y).a ≤ 0
        · simp only [if_pos hb, ne_eq, not_true_eq_false, false_iff, not_and]
          intro _ _
          exact not_lt.2 hb
        · simp only [if_neg hb, ne_eq, reduceCtorEq, not_false_eq_true, true_iff]
          exact ⟨hin, ⟨hw.1, hw.2.1, hw.2.2.1, hw.2.2.2⟩, lt_of_not_le hb⟩
    · rw [if_neg hin]
      simp only [ne_eq, not_true_eq_false, false_iff, not_and]
      intro hin2
      exact absurd hin2 hin
  · intro p hp
    unfold sampleContrib at hp
    rw [hsp] at hp
    by_cases hin : inFracExtent cols rows x y
    · rw [if_pos hin] at hp
      by_cases hw : (dem ⌊x⌋ ⌊y⌋).a ≤ 0 ∨ (dem (⌊x⌋ + 1) ⌊y⌋).a ≤ 0 ∨
          (dem ⌊x⌋ (⌊y⌋ + 1)).a ≤ 0 ∨ (dem (⌊x⌋ + 1) (⌊y⌋ + 1)).a ≤ 0
      · rw [if_pos hw] at hp
        simp at hp
      · rw [if_neg hw] at hp
        by_cases hb : (bilinearAt dem cols rows x y).a ≤ 0 <;> simp [hb] at hp
        exact hp.symm
    · rw [if_neg hin] at hp
      simp at hp

set_option maxRecDepth 100000 in
/-- Witness for C5 at the strictly fractional position (1/2, 1/2) of a 2x2
source with all weights 1. -/
theorem off_grid_contribution_iff_witness :
    ¬ onGridCond 2 2 (1 / 2) (1 / 2) ∧ sampleContrib demW 2 2 (1 / 2) (1 / 2) ≠ none :=
  ⟨by with_unfolding_all decide,
   ((off_grid_contribution_iff demW 2 2 (1 / 2) (1 / 2) (by with_unfolding_all decide)).1).mpr
     ⟨by with_unfolding_all decide,
      ⟨by with_unfolding_all decide, by with_unfolding_all decide,
       by with_unfolding_all decide, by with_unfolding_all decide⟩,
      by with_unfolding_all decide⟩⟩

/-! C3. -/

theorem foldl_max_shift {α : Type} [LinearOrder α] (l : List α) :
    ∀ a b : α, l.foldl max (max a b) = max (l.foldl max a) b := by
  induction l with
  | nil => intro a b; rfl
  | cons c t ih =>
    intro a b
    rw [List.foldl_cons, List.foldl_cons,
      show max (max a b) c = max (max a c) b by rw [max_assoc, max_comm b c, ← max_assoc],
      ih (max a c) b]

theorem init_le_foldl_max {α : Type} [LinearOrder α] (l : List α) :
    ∀ b : α, b ≤ l.foldl max b := by
  induction l with
  | nil => intro b; exact le_refl b
  | cons c t ih =>
    intro b
    rw [List.foldl_cons]
    exact le_trans (le_max_left b c) (ih (max b c))

theorem mem_le_foldl_max {α : Type} [LinearOrder α] (l : List α) :
    ∀ a b : α, a ∈ l → a ≤ l.foldl max b := by
  induction l with
  | nil => intro a b h; cases h
  | cons c t ih =>
    intro a b h
    rw [List.foldl_cons]
    rcases List.mem_cons.1 h with h1 | h2
    · subst h1
      exact le_trans (le_max_right b a) (init_le_foldl_max t _)
    · exact ih a _ h2

theorem foldl_max_mem_init {α : Type} [LinearOrder α] (l : List α) (a b : α)
    (hmem : a ∈ l) (hba : b ≤ a) : l.foldl max a = l.foldl max b := by
  calc l.foldl max a = l.foldl max (max b a) := by rw [max_eq_right hba]
    _ = max (l.foldl max b) a := foldl_max_shift l b a
    _ = l.foldl max b := max_eq_left (mem_le_foldl_max l a b hmem)

theorem cast_foldl_max (l : List ℕ) :
    ∀ a : ℕ, ((l.foldl max a : ℕ) : ℚ) = (l.map (fun n : ℕ => (n : ℚ))).foldl max ((a : ℕ) : ℚ) := by
  induction l with
  | nil => intro a; rfl
  | cons c t ih =>
    intro a
    rw [List.foldl_cons, List.map_cons, List.foldl_cons, ih, Nat.cast_max]

theorem mem_foldr_append {α β : Type} (f : α → List β) (l : List α) (a : α) (x : β)
    (ha : a ∈ l) (hx : x ∈ f a) :
    x ∈ l.foldr (fun a acc => f a ++ acc) [] := by
  induction l with
  | nil => cases ha
  | cons c t ih =>
    rw [List.foldr_cons]
    rcases List.mem_cons.1 ha with h1 | h2
    · subst h1
      exact List.mem_append_left _ hx
    · exact List.mem_append_right _ (ih h2)

theorem zero_zero_mem_pixList (cols rows : ℤ) (hc : 0 < cols) (hr : 0 < rows) :
    ((0 : ℤ), (0 : ℤ)) ∈ pixList cols rows := by
  unfold pixList
  have h1 : (0 : ℕ) ∈ List.range cols.toNat := List.mem_range.2 (by omega)
  have h0r : (0 : ℕ) ∈ List.range rows.toNat := List.mem_range.2 (by omega)
  have h2 : ((0 : ℤ), (0 : ℤ)) ∈
      (List.range rows.toNat).map (fun (b : ℕ) => (((0 : ℕ) : ℤ), (b : ℤ))) :=
    List.mem_map.2 ⟨0, h0r, by simp⟩
  exact mem_foldr_append _ _ _ _ h1 h2

theorem max_pixel_value_nat (w : ℤ → ℤ → ℕ) (cols rows : ℤ)
    (hc : 0 < cols) (hr : 0 < rows) :
    max_pixel_value (fun a b => ((w a b : ℕ) : ℚ)) cols rows =
      ((observedMax w cols rows : ℕ) : ℚ) := by
  unfold max_pixel_value observedMax
  rw [show ((pixList cols rows).map (fun p => ((w p.1 p.2 : ℕ) : ℚ))) =
      (((pixList cols rows).map (fun p => w p.1 p.2)).map (fun n : ℕ => (n : ℚ))) from by
    rw [List.map_map]; rfl]
  rw [← cast_foldl_max]
  have hmem : w 0 0 ∈ (pixList cols rows).map (fun p => w p.1 p.2) :=
    List.mem_map.2 ⟨(0, 0), zero_zero_mem_pixList cols rows hc hr, rfl⟩
  exact congrArg _ (foldl_max_mem_init _ _ _ hmem (Nat.zero_le _))

theorem truncI_natCast (n : ℕ) : truncI ((n : ℕ) : ℚ) = (n : ℤ) := by
  unfold truncI
  rw [if_pos (Nat.cast_nonneg n)]
  exact_mod_cast Int.floor_natCast n

/-- C3: for every (integer-valued, nonempty) per-source weight field and
every nonnegative erode_len, the eroded weights equal
clamp(w - erode_len, 0, max_cutoff - erode_len) pixelwise, where max_cutoff
is the maximum observed weight when that maximum exceeds erode_len, and
erode_len + 1 otherwise. -/
theorem erode_weights_clamp_formula (erode_len : ℤ) (_he : 0 ≤ erode_len)
    (w : ℤ → ℤ → ℕ) (cols rows : ℤ) (hc : 0 < cols) (hr : 0 < rows) (i j : ℤ) :
    erodeWts erode_len (fun a b => ((w a b : ℕ) : ℚ)) cols rows i j =
      clampQ (((w i j : ℕ) : ℚ) - (erode_len : ℚ)) 0
        (((specMaxCutoff erode_len w cols rows : ℤ) : ℚ) - (erode_len : ℚ)) := by
  simp only [erodeWts]
  rw [max_pixel_value_nat w cols rows hc hr, truncI_natCast]
  unfold specMaxCutoff
  by_cases hm : (observedMax w cols rows : ℤ) ≤ erode_len
  · rw [if_pos hm, if_neg (not_lt.2 hm)]
  · rw [if_neg hm, if_pos (not_le.1 hm)]

set_option maxRecDepth 100000 in
/-- Witness for C3 on a concrete 2x2 weight field with maximum 3 and
erode_len 1. -/
theorem erode_weights_clamp_formula_witness :
    (0 : ℤ) ≤ 1 ∧ (0 : ℤ) < 2 ∧
    erodeWts 1 (fun a b => ((wWit a b : ℕ) : ℚ)) 2 2 0 0 =
      clampQ (((wWit 0 0 : ℕ) : ℚ) - ((1 : ℤ) : ℚ)) 0
        (((specMaxCutoff 1 wWit 2 2 : ℤ) : ℚ) - ((1 : ℤ) : ℚ)) :=
  ⟨by decide, by decide,
   erode_weights_clamp_formula 1 (by decide) wWit 2 2 (by decide) (by decide) 0 0⟩

/-! C6. -/

theorem handle_arguments_ok_conditions (o : Opts) (unreg listC : List String)
    (fs : List String) (h : handle_arguments o unreg listC = Except.ok fs) :
    ¬(0 < o.mpp ∧ 0 < o.tr) ∧ o.outPref ≠ "" ∧ o.num_threads ≠ 0 ∧
    ¬(o.erode_len < 0) ∧ ¬(o.blending_len < 0) ∧ ¬(o.tile_size ≤ 0) ∧
    ¬(o.draft_mode = true ∧ 0 < o.erode_len) ∧ ¬(o.geo_tile_size < 0) ∧
    ¬(o.dem_list_file ≠ "" ∧ listC = []) ∧ ¬(o.dem_list_file = "" ∧ unreg = []) := by
  unfold handle_arguments at h
  split_ifs at h with h1 h2 h3 h4 h5 h6 h7 h8 h9 h10 h11 h12
  · exact ⟨h1, h2, h3, h4, h5, h6, h7, h8,
      fun hh => h11 hh.2, fun hh => h9 hh.1⟩
  · exact ⟨h1, h2, h3, h4, h5, h6, h7, h8,
      fun hh => h9 hh.1, fun hh => h12 hh.2⟩

/-- C6: every configuration error (mutually exclusive resolution flags both
set, empty output prefix, zero thread count, negative erode length, negative
blending length, non-positive tile size, draft mode with positive erode
length, negative projected tile size, changing the projection without
specifying a resolution, or no input DEMs resolved) makes the driver exit
with a non-zero code before writing any tile. -/
theorem config_errors_fatal_no_io (o : Opts) (unreg listC : List String)
    (firstProj : String) (spacing : ℚ) (cols rows : ℤ)
    (h : configError o unreg listC firstProj) :
    (runDriver o unreg listC firstProj spacing cols rows).exitCode = 1 ∧
    (runDriver o unreg listC firstProj spacing cols rows).writes = [] := by
  unfold runDriver
  cases hha : handle_arguments o unreg listC with
  | error e => exact ⟨rfl, rfl⟩
  | ok fs =>
    obtain ⟨n1, n2, n3, n4, n5, n6, n7, n8, n9, n10⟩ :=
      handle_arguments_ok_conditions o unreg listC fs hha
    unfold mainAfterChecks
    by_cases hsrs : o.target_srs_string ≠ "" ∧ o.target_srs_string ≠ firstProj ∧ o.tr ≤ 0
    · rw [if_pos hsrs]
      exact ⟨rfl, rfl⟩
    · exfalso
      rcases h with hx | hx | hx | hx | hx | hx | hx | hx | hx | hx | hx
      exacts [n1 hx, n2 hx, n3 hx, n4 hx, n5 hx, n6 hx, n7 hx, n8 hx, hsrs hx, n9 hx, n10 hx]

set_option maxRecDepth 100000 in
/-- Witness for C6: an options record with an empty output prefix. -/
theorem config_errors_fatal_no_io_witness :
    configError optsBad ["a.tif"] [] "proj" ∧
    (runDriver optsBad ["a.tif"] [] "proj" 1 10 10).exitCode = 1 ∧
    (runDriver optsBad ["a.tif"] [] "proj" 1 10 10).writes = [] :=
  ⟨Or.inr (Or.inl rfl),
   config_errors_fatal_no_io optsBad ["a.tif"] [] "proj" 1 10 10 (Or.inr (Or.inl rfl))⟩

/-! C9. -/

theorem fvNe_nan_left (b : FV) : fvNe FV.nan b = true := by
  cases b <;> rfl

set_option maxRecDepth 100000 in
theorem nanSource_dem (nodata : FV) :
    (nanSource nodata).dem 0 0 = { v := FV.nan, a := 100000000 } := by
  unfold nanSource buildDem
  simp only [if_pos rfl, bigOrZero, fvNe_nan_left, if_true]
  have hpl : pixList 1 1 = [((0 : ℤ), (0 : ℤ))] := by with_unfolding_all decide
  simp only [erodeWts, max_pixel_value, hpl, List.map_cons, List.map_nil,
    List.foldl_cons, List.foldl_nil, max_self]
  norm_num [truncI, clampQ]

set_option maxRecDepth 100000 in
theorem mosaic_nan_draft (nodata : FV) :
    mosaicPixel true nodata [nanSource nodata] 0 0 = FV.nan := by
  have hdem := nanSource_dem nodata
  have hsp : samplePval (nanSource nodata).dem 1 1 0 0 =
      some ((nanSource nodata).dem 0 0) := by
    have hon : onGridCond 1 1 (0 : ℚ) (0 : ℚ) := by with_unfolding_all decide
    have hr0 : roundAway (0 : ℚ) = 0 := by with_unfolding_all decide
    unfold samplePval
    rw [if_pos hon, hr0]
  have hcon : sourceContrib (nanSource nodata) 0 0 =
      some { v := FV.nan, a := 100000000 } := by
    unfold sourceContrib sampleContrib
    have hmap : (nanSource nodata).mapPix 0 0 = ((0 : ℚ), (0 : ℚ)) := by
      unfold nanSource
      norm_num
    rw [hmap]
    show (match samplePval (nanSource nodata).dem 1 1 0 0 with
      | none => none
      | some p => if p.a ≤ 0 then none else some p) = _
    rw [hsp, hdem]
    norm_num
  unfold mosaicPixel processSources
  rw [List.foldl_cons, List.foldl_nil, hcon]
  unfold applyContrib
  norm_num [fvDivQ]

/-- C9: draft-mode validity is only inequality with the no-data sentinel
(no NaN check): a NaN source pixel compares unequal to the sentinel, receives
the large positive weight 1e+8 from BigOrZero, and can contribute its NaN
value to the mosaic output; in blended mode the NotNoDataFunctor marks a NaN
pixel invalid and the grassfire weight there is zero. -/
theorem draft_nan_weight_contribution (nodata : FV) (img : ℤ → ℤ → FV)
    (cols rows i j : ℤ) (h : img i j = FV.nan) :
    fvNe (img i j) nodata = true ∧
    bigOrZero nodata (img i j) = 100000000 ∧
    notNoDataF nodata (img i j) = false ∧
    grassfireWt (fun a b => notNoDataF nodata (img a b)) cols rows i j = 0 ∧
    mosaicPixel true nodata [nanSource nodata] 0 0 = FV.nan := by
  refine ⟨?_, ?_, ?_, ?_, mosaic_nan_draft nodata⟩
  · rw [h]
    exact fvNe_nan_left nodata
  · unfold bigOrZero
    rw [h, fvNe_nan_left, if_pos rfl]
  · unfold notNoDataF
    rw [h, fvNe_nan_left]
    rfl
  · unfold grassfireWt
    have hv : notNoDataF nodata (img i j) = false := by
      unfold notNoDataF
      rw [h, fvNe_nan_left]
      rfl
    simp only [hv]
    rfl

/-- Witness for C9 on an all-NaN 1x1 image with sentinel 0. -/
theorem draft_nan_weight_contribution_witness :
    nanImg 0 0 = FV.nan ∧
    (fvNe (nanImg 0 0) (FV.num 0) = true ∧
     bigOrZero (FV.num 0) (nanImg 0 0) = 100000000 ∧
     notNoDataF (FV.num 0) (nanImg 0 0) = false ∧
     grassfireWt (fun a b => notNoDataF (FV.num 0) (nanImg a b)) 1 1 0 0 = 0 ∧
     mosaicPixel true (FV.num 0) [nanSource (FV.num 0)] 0 0 = FV.nan) :=
  ⟨rfl, draft_nan_weight_contribution (FV.num 0) nanImg 1 1 0 0 rfl⟩
